import Mathlib

/-!
Shallow embedding of the Open The Port run-state engine
(`packages/shared/src/index.ts`, `apps/web/src/engine/stateManager.ts`,
`apps/web/src/engine/cooldownManager.ts`, `engine/selectionEngine.ts`,
`engine/eventEngine.ts`, and the zustand store), with theorems checking
the design document against the code.

JavaScript numbers are modelled as rationals; `Record<string, number>`
is modelled as a partial map `String → Option ℚ`; the ambient
`Math.random()` draws are modelled as explicit inputs in [0,1), one per
call site (a stream `ℕ → ℚ` where a loop draws once per iteration).
-/

namespace OpenPort

/-- The seven numeric fields of `GameState` (shared/src/index.ts). -/
inductive Field
  | timeLeft
  | stress
  | privilege
  | bureaucracy
  | security
  | influence
  | score
deriving DecidableEq, Repr

/-- TS `GameState` from shared/src/index.ts: all fields are JS numbers. -/
structure GameState where
  timeLeft : ℚ
  stress : ℚ
  privilege : ℚ
  bureaucracy : ℚ
  security : ℚ
  influence : ℚ
  score : ℚ
deriving DecidableEq, Repr

/-- TS `Effect`: a signed delta on one named field. -/
structure Effect where
  target : Field
  delta : ℚ
deriving DecidableEq, Repr

/-- The comparison operators of `Condition.op`. -/
inductive Op
  | gt
  | lt
  | ge
  | le
  | eq
  | ne
deriving DecidableEq, Repr

/-- TS `Condition`: field name, operator, numeric threshold. -/
structure Condition where
  param : Field
  op : Op
  value : ℚ
deriving DecidableEq, Repr

/-- TS `Action` from shared/src/index.ts. -/
structure Action where
  id : String
  label : String
  effects : List Effect
  cooldown : ℚ
  scoreImpact : ℚ
deriving DecidableEq, Repr

/-- The `terminalOutcome` tag of an event (`win` or `lose`). -/
inductive TerminalTag
  | win
  | lose
deriving DecidableEq, Repr

/-- TS `Event` from shared/src/index.ts. The optional `terminal` boolean is
modelled as a `Bool` (the JS `undefined` is falsy, like `false`); the
optional `terminalOutcome` is an `Option`. -/
structure Event where
  id : String
  title : String
  description : String
  baseWeight : ℚ
  cooldown : ℚ
  conditions : List Condition
  actions : List Action
  terminal : Bool := false
  terminalOutcome : Option TerminalTag := none
deriving DecidableEq, Repr

/-- A JS `Record<string, number>` as a partial map. -/
def StrMap : Type := String → Option ℚ

/-- Writing `m[k] = v` on a JS record: the map updated at one key. -/
def StrMap.set (m : StrMap) (k : String) (v : ℚ) : StrMap :=
  fun k2 => if k2 = k then some v else m k2

/-- The everywhere-undefined record. -/
def StrMap.empty : StrMap := fun _ => none

/-- TS `CooldownState`: event-id and action-id expiry maps (ms timestamps). -/
structure CooldownState where
  events : StrMap
  actions : StrMap

/-- The five run outcomes: `win` plus the four `LoseReason` strings
(in TS these are a flat union of string literals; `checkLoseCondition`
only ever returns `time`, `stress` or `privilege`). -/
inductive RunOutcome
  | win
  | time
  | stress
  | privilege
  | critical
deriving DecidableEq, Repr

/-! ## stateManager.ts -/

/-- TS `INITIAL_STATE` from stateManager.ts. -/
def INITIAL_STATE : GameState :=
  { timeLeft := 180, stress := 20, privilege := 1, bureaucracy := 20,
    security := 20, influence := 0, score := 0 }

/-- A `Partial<GameState>`: each field optionally present. -/
structure PartialGameState where
  timeLeft : Option ℚ := none
  stress : Option ℚ := none
  privilege : Option ℚ := none
  bureaucracy : Option ℚ := none
  security : Option ℚ := none
  influence : Option ℚ := none
  score : Option ℚ := none

/-- TS `initState(overrides)`: spread of `INITIAL_STATE` then the overrides. -/
def initState (overrides : PartialGameState) : GameState :=
  { timeLeft := overrides.timeLeft.getD INITIAL_STATE.timeLeft,
    stress := overrides.stress.getD INITIAL_STATE.stress,
    privilege := overrides.privilege.getD INITIAL_STATE.privilege,
    bureaucracy := overrides.bureaucracy.getD INITIAL_STATE.bureaucracy,
    security := overrides.security.getD INITIAL_STATE.security,
    influence := overrides.influence.getD INITIAL_STATE.influence,
    score := overrides.score.getD INITIAL_STATE.score }

/-- Dynamic field read `state[target]`. -/
def GameState.get (s : GameState) : Field → ℚ
  | .timeLeft => s.timeLeft
  | .stress => s.stress
  | .privilege => s.privilege
  | .bureaucracy => s.bureaucracy
  | .security => s.security
  | .influence => s.influence
  | .score => s.score

/-- Dynamic field write `state[target] = v`. -/
def GameState.set (s : GameState) : Field → ℚ → GameState
  | .timeLeft, v => { s with timeLeft := v }
  | .stress, v => { s with stress := v }
  | .privilege, v => { s with privilege := v }
  | .bureaucracy, v => { s with bureaucracy := v }
  | .security, v => { s with security := v }
  | .influence, v => { s with influence := v }
  | .score, v => { s with score := v }

/-- TS `applyEffects(state, effects)`: each delta added to its field in
order (stateManager.ts lines 17-23). -/
def applyEffects (state : GameState) (effects : List Effect) : GameState :=
  effects.foldl (fun next effect =>
    next.set effect.target (next.get effect.target + effect.delta)) state

/-- TS `clampState(state)` (stateManager.ts lines 25-34): stress,
bureaucracy, security to [0,100]; privilege and timeLeft to [0,∞);
influence and score spread through unchanged. -/
def clampState (state : GameState) : GameState :=
  { state with
    stress := min 100 (max 0 state.stress),
    bureaucracy := min 100 (max 0 state.bureaucracy),
    security := min 100 (max 0 state.security),
    privilege := max 0 state.privilege,
    timeLeft := max 0 state.timeLeft }

/-- TS `applyAndClamp(state, effects)`. -/
def applyAndClamp (state : GameState) (effects : List Effect) : GameState :=
  clampState (applyEffects state effects)

/-- TS `checkLoseCondition(state)` (stateManager.ts lines 40-45). -/
def checkLoseCondition (state : GameState) : Option RunOutcome :=
  if state.timeLeft ≤ 0 then some .time
  else if 100 ≤ state.stress then some .stress
  else if state.privilege ≤ 0 then some .privilege
  else none

/-! ## cooldownManager.ts -/

/-- TS `emptyCooldowns()`. -/
def emptyCooldowns : CooldownState :=
  { events := StrMap.empty, actions := StrMap.empty }

/-- TS `startEventCooldown(state, eventId, durationSec, now)`. -/
def startEventCooldown (state : CooldownState) (eventId : String)
    (durationSec now : ℚ) : CooldownState :=
  { state with events := state.events.set eventId (now + durationSec * 1000) }

/-- TS `startActionCooldown(state, actionId, durationSec, now)`. -/
def startActionCooldown (state : CooldownState) (actionId : String)
    (durationSec now : ℚ) : CooldownState :=
  { state with actions := state.actions.set actionId (now + durationSec * 1000) }

/-- TS `isEventOnCooldown(state, eventId, now)`: entry exists and `now < expiry`. -/
def isEventOnCooldown (state : CooldownState) (eventId : String) (now : ℚ) : Bool :=
  match state.events eventId with
  | none => false
  | some expiry => decide (now < expiry)

/-- TS `isActionOnCooldown(state, actionId, now)`. -/
def isActionOnCooldown (state : CooldownState) (actionId : String) (now : ℚ) : Bool :=
  match state.actions actionId with
  | none => false
  | some expiry => decide (now < expiry)

/-! ## selectionEngine.ts -/

/-- TS `evaluateCondition(state, condition)`. -/
def evaluateCondition (state : GameState) (condition : Condition) : Bool :=
  let val := state.get condition.param
  match condition.op with
  | .gt => decide (val > condition.value)
  | .lt => decide (val < condition.value)
  | .ge => decide (val ≥ condition.value)
  | .le => decide (val ≤ condition.value)
  | .eq => decide (val = condition.value)
  | .ne => decide (val ≠ condition.value)

/-- TS `evaluateConditions(state, conditions)`: AND over the collection. -/
def evaluateConditions (state : GameState) (conditions : List Condition) : Bool :=
  conditions.all (fun c => evaluateCondition state c)

/-- TS `computeWeight(event, _state, envModifiers)`:
`baseWeight * stateModifier (fixed 1.0) * (envModifiers[event.id] ?? 1.0)`. -/
def computeWeight (event : Event) (_state : GameState) (envModifiers : StrMap) : ℚ :=
  let stateModifier : ℚ := 1
  let envModifier : ℚ := (envModifiers event.id).getD 1
  event.baseWeight * stateModifier * envModifier

/-- Loop body of `generateEnvModifiers`: one `Math.random()` draw per
event, modelled as reading `rand i` at the i-th iteration;
`modifiers[event.id] = 0.8 + rand * 0.4`. -/
def genEnvLoop (events : List Event) (i : ℕ) (rand : ℕ → ℚ)
    (modifiers : StrMap) : StrMap :=
  match events with
  | [] => modifiers
  | event :: rest =>
      genEnvLoop rest (i + 1) rand
        (modifiers.set event.id (8/10 + rand i * (4/10)))

/-- TS `generateEnvModifiers(events)` (selectionEngine.ts lines 150-156):
the ambient `Math.random()` draws are made explicit as a stream. -/
def generateEnvModifiers (events : List Event) (rand : ℕ → ℚ) : StrMap :=
  genEnvLoop events 0 rand StrMap.empty

/-- TS `total = weights.reduce((sum, w) => sum + Math.max(0, w), 0)`. -/
def sumPosWeights (weights : List ℚ) : ℚ :=
  weights.foldl (fun sum w => sum + max 0 w) 0

/-- The main `for` loop of `weightedRandomPick`: subtract
`Math.max(0, weights[i])` from `roll`; return `items[i]` once
`roll <= 0`. When the weights list is exhausted before the items list
(in JS `weights[i]` is then `undefined` and `roll` becomes `NaN`,
never ≤ 0), the loop can no longer return. -/
def pickLoop {α : Type} : List α → List ℚ → ℚ → Option α
  | [], _, _ => none
  | _ :: _, [], _ => none
  | x :: xs, w :: ws, roll =>
      let roll2 := roll - max 0 w
      if roll2 ≤ 0 then some x else pickLoop xs ws roll2

/-- The fallback loop of `weightedRandomPick`: scan from the last index
down, return the first item whose weight is `> 0` (for indices past the
end of the weights list the JS comparison `undefined > 0` is false,
matching the truncation done by `zip`). -/
def pickFallback {α : Type} (items : List α) (weights : List ℚ) : Option α :=
  (((items.zip weights).reverse).find? (fun p => decide (0 < p.2))).map Prod.fst

/-- TS `weightedRandomPick(items, weights)` (selectionEngine.ts lines
158-176), with the single ambient `Math.random()` draw made explicit as
`rand` (so `roll = rand * total`). -/
def weightedRandomPick {α : Type} (items : List α) (weights : List ℚ)
    (rand : ℚ) : Option α :=
  if items.isEmpty then none
  else
    let total := sumPosWeights weights
    if total ≤ 0 then none
    else
      match pickLoop items weights (rand * total) with
      | some x => some x
      | none => pickFallback items weights

/-! ## eventEngine.ts -/

/-- TS `getEligibleEvents(events, state, cooldowns, now)`. -/
def getEligibleEvents (events : List Event) (state : GameState)
    (cooldowns : CooldownState) (now : ℚ) : List Event :=
  events.filter (fun e =>
    evaluateConditions state e.conditions && !isEventOnCooldown cooldowns e.id now)

/-- TS `selectNextEvent(events, state, cooldowns, envModifiers, now)`, with
the `Math.random()` draw inside `weightedRandomPick` explicit as `rand`. -/
def selectNextEvent (events : List Event) (state : GameState)
    (cooldowns : CooldownState) (envModifiers : StrMap) (now : ℚ)
    (rand : ℚ) : Option Event :=
  let eligible := getEligibleEvents events state cooldowns now
  if eligible.isEmpty then none
  else
    let weights := eligible.map (fun e => computeWeight e state envModifiers)
    weightedRandomPick eligible weights rand

/-- TS `applyAction(gameState, cooldowns, action, eventId, eventCooldown, now)`
(eventEngine.ts lines 30-48): returns the new state and cooldown table. -/
def applyAction (gameState : GameState) (cooldowns : CooldownState)
    (action : Action) (eventId : String) (eventCooldown : ℚ) (now : ℚ) :
    GameState × CooldownState :=
  let effects := action.effects ++
    (if action.scoreImpact ≠ 0
      then [{ target := Field.score, delta := action.scoreImpact }]
      else [])
  let nextGameState := applyAndClamp gameState effects
  let nextCooldowns :=
    startEventCooldown (startActionCooldown cooldowns action.id action.cooldown now)
      eventId eventCooldown now
  (nextGameState, nextCooldowns)

/-- TS `checkRunOutcome(state, selectedEvent?)` (eventEngine.ts lines 50-63). -/
def checkRunOutcome (state : GameState) (selectedEvent : Option Event) :
    Option RunOutcome :=
  match checkLoseCondition state with
  | some loseReason => some loseReason
  | none =>
      match selectedEvent with
      | some e =>
          if e.terminal then
            match e.terminalOutcome with
            | some .win => some .win
            | some .lose => some .critical
            | none => none
          else none
      | none => none

/-! ## The zustand store (run controller) -/

/-- The three phases of the run controller. -/
inductive Phase
  | idle
  | playing
  | over
deriving DecidableEq, Repr

/-- The zustand store state (store.ts). -/
structure Store where
  phase : Phase
  allEvents : List Event
  gameState : GameState
  cooldowns : CooldownState
  envModifiers : StrMap
  currentEvent : Option Event
  outcome : Option RunOutcome
  log : List String

/-- TS `pickAction(action, event)` from the store, with `Date.now()` and the
`Math.random()` draw of the inner `selectNextEvent` explicit. Note the
source has no phase guard here (unlike `tick`). -/
def pickAction (store : Store) (action : Action) (event : Event)
    (now : ℚ) (rand : ℚ) : Store :=
  let applied := applyAction store.gameState store.cooldowns action
    event.id event.cooldown now
  let next := applied.1
  let nextCooldowns := applied.2
  match checkRunOutcome next (some event) with
  | some outcome =>
      { store with
        gameState := next, cooldowns := nextCooldowns,
        outcome := some outcome, phase := .over }
  | none =>
      let nextEvent := selectNextEvent store.allEvents next nextCooldowns
        store.envModifiers now rand
      { store with
        gameState := next, cooldowns := nextCooldowns,
        currentEvent := nextEvent,
        log := (("> " ++ action.label) ::
          ((match nextEvent with
            | some e => [e.title]
            | none => []) ++ store.log)).take 12 }

/-- TS `tick()` from the store: guarded on phase; decrements `timeLeft`
with a floor at 0; retries selection (at the current clock `nowRetry`,
drawing `rand`) only when no event is showing. -/
def tick (store : Store) (nowRetry : ℚ) (rand : ℚ) : Store :=
  if store.phase ≠ .playing then store
  else
    let next := { store.gameState with
      timeLeft := max 0 (store.gameState.timeLeft - 1) }
    match checkRunOutcome next none with
    | some outcome =>
        { store with gameState := next, outcome := some outcome, phase := .over }
    | none =>
        match store.currentEvent with
        | none =>
            { store with
              gameState := next,
              currentEvent := selectNextEvent store.allEvents next
                store.cooldowns store.envModifiers nowRetry rand }
        | some _ => { store with gameState := next }

/-- TS `randomInRange([min, max])` from store.ts:
`Math.floor(min + Math.random() * (max - min + 1))`, with the draw
explicit. The range endpoints are integers. -/
def randomInRange (lo hi : ℤ) (rand : ℚ) : ℤ :=
  ⌊(lo : ℚ) + rand * ((hi : ℚ) - (lo : ℚ) + 1)⌋

/-- An inclusive integer range, as stored in `config.json`. -/
structure InitRange where
  lo : ℤ
  hi : ℤ

/-- Modelled from the spec: `config.initRanges` comes from
`data/config.json`, which is not among the source files (only its
reader `startRun` is). The spec treats it as the start-value ranges for
the randomized seed fields; we carry it as an explicit parameter. -/
structure InitRanges where
  stress : InitRange
  bureaucracy : InitRange
  security : InitRange

/-- The `gameState` built by `startRun` (store.ts lines 54-58):
`initState` with stress, bureaucracy and security overridden by
`randomInRange` draws from the config ranges. -/
def startRunInitState (cfg : InitRanges) (rs rb rsec : ℚ) : GameState :=
  initState
    { stress := some ((randomInRange cfg.stress.lo cfg.stress.hi rs : ℤ) : ℚ),
      bureaucracy :=
        some ((randomInRange cfg.bureaucracy.lo cfg.bureaucracy.hi rb : ℤ) : ℚ),
      security :=
        some ((randomInRange cfg.security.lo cfg.security.hi rsec : ℤ) : ℚ) }

/-! ## Predicates and concrete values used by the verification -/

/-- Every bounded field of the state lies in its declared domain:
stress, bureaucracy and security in [0,100]; privilege and timeLeft
at least 0 (influence and score are unbounded in the code). -/
def InDomain (s : GameState) : Prop :=
  0 ≤ s.stress ∧ s.stress ≤ 100 ∧
  0 ≤ s.bureaucracy ∧ s.bureaucracy ≤ 100 ∧
  0 ≤ s.security ∧ s.security ≤ 100 ∧
  0 ≤ s.privilege ∧ 0 ≤ s.timeLeft

instance (s : GameState) : Decidable (InDomain s) := by
  unfold InDomain
  infer_instance

/-- The net delta a list of effects applies to the influence field. -/
def influenceDeltaSum (effects : List Effect) : ℚ :=
  (effects.map (fun e => if e.target = Field.influence then e.delta else 0)).sum

/-- The config ranges lie within the declared domains of the three
seeded fields (each a sub-range of [0,100]). -/
def InitRanges.withinDomains (cfg : InitRanges) : Prop :=
  (0 ≤ cfg.stress.lo ∧ cfg.stress.lo ≤ cfg.stress.hi ∧ cfg.stress.hi ≤ 100) ∧
  (0 ≤ cfg.bureaucracy.lo ∧ cfg.bureaucracy.lo ≤ cfg.bureaucracy.hi ∧
    cfg.bureaucracy.hi ≤ 100) ∧
  (0 ≤ cfg.security.lo ∧ cfg.security.lo ≤ cfg.security.hi ∧ cfg.security.hi ≤ 100)

instance (cfg : InitRanges) : Decidable cfg.withinDomains := by
  unfold InitRanges.withinDomains
  infer_instance

/-- A demo action: raises stress by 10, no cooldown, no score impact. -/
def demoAction : Action :=
  { id := "act-1", label := "demo", effects := [{ target := Field.stress, delta := 10 }],
    cooldown := 0, scoreImpact := 0 }

/-- A demo non-terminal event offering `demoAction`. -/
def demoEventPlain : Event :=
  { id := "ev-plain", title := "plain", description := "",
    baseWeight := 1, cooldown := 0, conditions := [], actions := [demoAction] }

/-- A demo terminal event tagged win. -/
def demoTerminalWin : Event :=
  { id := "ev-win", title := "win", description := "",
    baseWeight := 1, cooldown := 0, conditions := [], actions := [demoAction],
    terminal := true, terminalOutcome := some TerminalTag.win }

/-- A demo terminal event tagged lose. -/
def demoTerminalLose : Event :=
  { id := "ev-lose", title := "lose", description := "",
    baseWeight := 1, cooldown := 0, conditions := [], actions := [demoAction],
    terminal := true, terminalOutcome := some TerminalTag.lose }

/-- A demo event with a 5-second cooldown and no conditions. -/
def eventA : Event :=
  { id := "ev-A", title := "A", description := "",
    baseWeight := 1, cooldown := 5, conditions := [], actions := [demoAction] }

/-- A second demo event with a 5-second cooldown and no conditions. -/
def eventB : Event :=
  { id := "ev-B", title := "B", description := "",
    baseWeight := 1, cooldown := 5, conditions := [], actions := [demoAction] }

/-- A store in the terminal `over` phase (a finished run). -/
def overStore : Store :=
  { phase := .over, allEvents := [], gameState := INITIAL_STATE,
    cooldowns := emptyCooldowns, envModifiers := StrMap.empty,
    currentEvent := none, outcome := some .time, log := [] }

/-- A store in the `idle` phase (no run started). -/
def idleStore : Store :=
  { phase := .idle, allEvents := [], gameState := INITIAL_STATE,
    cooldowns := emptyCooldowns, envModifiers := StrMap.empty,
    currentEvent := none, outcome := none, log := [] }

/-- A demo config whose init ranges lie within the declared domains. -/
def cfgDemo : InitRanges :=
  { stress := { lo := 10, hi := 30 },
    bureaucracy := { lo := 10, hi := 30 },
    security := { lo := 10, hi := 30 } }

/-- A constant random stream. -/
def rStream0 : ℕ → ℚ := fun _ => 0

/-- A random stream that agrees with `rStream0` only at index 0. -/
def rStream1 : ℕ → ℚ := fun i => if i = 0 then 0 else 1/2

/-! ## Helper lemmas -/

lemma clamp100_nonneg (x : ℚ) : 0 ≤ min 100 (max 0 x) :=
  le_min (by norm_num) (le_max_left 0 x)

lemma clamp100_le (x : ℚ) : min 100 (max 0 x) ≤ 100 :=
  min_le_left _ _

lemma max0_idem (x : ℚ) : max 0 (max 0 x) = max 0 x :=
  max_eq_right (le_max_left 0 x)

lemma clamp100_idem (x : ℚ) :
    min 100 (max 0 (min 100 (max 0 x))) = min 100 (max 0 x) := by
  rw [max_eq_right (clamp100_nonneg x), min_eq_right (clamp100_le x)]

/-- Clamping always lands in the declared domains. -/
lemma clampState_inDomain (s : GameState) : InDomain (clampState s) := by
  obtain ⟨t, st, p, b, sec, inf, sc⟩ := s
  exact ⟨clamp100_nonneg _, clamp100_le _, clamp100_nonneg _, clamp100_le _,
    clamp100_nonneg _, clamp100_le _, le_max_left _ _, le_max_left _ _⟩

lemma influenceDeltaSum_cons (e : Effect) (effs : List Effect) :
    influenceDeltaSum (e :: effs) =
      (if e.target = Field.influence then e.delta else 0) + influenceDeltaSum effs := by
  simp [influenceDeltaSum]

lemma influenceDeltaSum_append (l1 l2 : List Effect) :
    influenceDeltaSum (l1 ++ l2) = influenceDeltaSum l1 + influenceDeltaSum l2 := by
  simp [influenceDeltaSum]

lemma set_influence (s : GameState) (f : Field) (v : ℚ) :
    (s.set f v).influence = if f = Field.influence then v else s.influence := by
  cases f <;> simp [GameState.set]

/-- Effect application shifts influence by exactly the summed influence deltas. -/
lemma applyEffects_influence (s : GameState) (effs : List Effect) :
    (applyEffects s effs).influence = s.influence + influenceDeltaSum effs := by
  induction effs generalizing s with
  | nil => simp [applyEffects, influenceDeltaSum]
  | cons e effs ih =>
    have hstep : applyEffects s (e :: effs) =
        applyEffects (s.set e.target (s.get e.target + e.delta)) effs := rfl
    rw [hstep, ih, influenceDeltaSum_cons, set_influence]
    split_ifs with he
    · rw [he]
      show s.influence + e.delta + _ = _
      ring
    · ring

/-- Floor-based range draw lands in the inclusive range. -/
lemma randomInRange_bounds (lo hi : ℤ) (r : ℚ) (hr0 : 0 ≤ r) (hr1 : r < 1)
    (hlh : lo ≤ hi) :
    lo ≤ randomInRange lo hi r ∧ randomInRange lo hi r ≤ hi := by
  have hcast : (lo : ℚ) ≤ (hi : ℚ) := by exact_mod_cast hlh
  have hfac : (0 : ℚ) ≤ (hi : ℚ) - (lo : ℚ) + 1 := by linarith
  constructor
  · apply Int.le_floor.mpr
    have := mul_nonneg hr0 hfac
    linarith
  · apply Int.lt_add_one_iff.mp
    apply Int.floor_lt.mpr
    push_cast
    have hfacpos : (0 : ℚ) < (hi : ℚ) - (lo : ℚ) + 1 := by linarith
    have := mul_lt_mul_of_pos_right hr1 hfacpos
    linarith

/-! ## C6 -/

/-- C6: for every input state, `clampState` puts stress, security and
bureaucracy in [0,100] and timeLeft and privilege at ≥ 0 regardless of
input magnitude, passes the unbounded score field through unchanged,
and is idempotent. -/
theorem clampState_bounds_idem (s : GameState) :
    0 ≤ (clampState s).stress ∧ (clampState s).stress ≤ 100 ∧
    0 ≤ (clampState s).security ∧ (clampState s).security ≤ 100 ∧
    0 ≤ (clampState s).bureaucracy ∧ (clampState s).bureaucracy ≤ 100 ∧
    0 ≤ (clampState s).timeLeft ∧ 0 ≤ (clampState s).privilege ∧
    (clampState s).score = s.score ∧
    clampState (clampState s) = clampState s := by
  obtain ⟨t, st, p, b, sec, inf, sc⟩ := s
  refine ⟨clamp100_nonneg _, clamp100_le _, clamp100_nonneg _, clamp100_le _,
    clamp100_nonneg _, clamp100_le _, le_max_left _ _, le_max_left _ _, rfl, ?_⟩
  simp [clampState, clamp100_idem, max0_idem]

/-! ## C8 -/

/-- C8: starting a cooldown maps the id to `now + duration * 1000`;
`isOnCooldown` is true iff an entry exists and `now < expiry`; an id
absent from its mapping is never on cooldown; a duration of 0 leaves
the id immediately eligible again. -/
theorem cooldown_start_isOn_semantics (t : CooldownState) (id : String) (d now : ℚ) :
    (startEventCooldown t id d now).events id = some (now + d * 1000) ∧
    (startActionCooldown t id d now).actions id = some (now + d * 1000) ∧
    (isEventOnCooldown t id now = true ↔ ∃ e, t.events id = some e ∧ now < e) ∧
    (isActionOnCooldown t id now = true ↔ ∃ e, t.actions id = some e ∧ now < e) ∧
    (t.events id = none → isEventOnCooldown t id now = false) ∧
    (t.actions id = none → isActionOnCooldown t id now = false) ∧
    isEventOnCooldown (startEventCooldown t id 0 now) id now = false ∧
    isActionOnCooldown (startActionCooldown t id 0 now) id now = false := by
  refine ⟨?_, ?_, ?_, ?_, ?_, ?_, ?_, ?_⟩
  · simp [startEventCooldown, StrMap.set]
  · simp [startActionCooldown, StrMap.set]
  · unfold isEventOnCooldown
    cases h : t.events id <;> simp [h]
  · unfold isActionOnCooldown
    cases h : t.actions id <;> simp [h]
  · intro h
    simp [isEventOnCooldown, h]
  · intro h
    simp [isActionOnCooldown, h]
  · simp [isEventOnCooldown, startEventCooldown, StrMap.set]
  · simp [isActionOnCooldown, startActionCooldown, StrMap.set]

/-- Witness for C8 at a concrete table, id, duration and clock. -/
theorem cooldown_start_isOn_semantics_witness :
    (startEventCooldown emptyCooldowns ("x") 10 5).events ("x") = some (5 + 10 * 1000) ∧
    (startActionCooldown emptyCooldowns ("x") 10 5).actions ("x") = some (5 + 10 * 1000) ∧
    (isEventOnCooldown emptyCooldowns ("x") 5 = true ↔
      ∃ e, emptyCooldowns.events ("x") = some e ∧ (5:ℚ) < e) ∧
    (isActionOnCooldown emptyCooldowns ("x") 5 = true ↔
      ∃ e, emptyCooldowns.actions ("x") = some e ∧ (5:ℚ) < e) ∧
    (emptyCooldowns.events ("x") = none → isEventOnCooldown emptyCooldowns ("x") 5 = false) ∧
    (emptyCooldowns.actions ("x") = none → isActionOnCooldown emptyCooldowns ("x") 5 = false) ∧
    isEventOnCooldown (startEventCooldown emptyCooldowns ("x") 0 5) ("x") 5 = false ∧
    isActionOnCooldown (startActionCooldown emptyCooldowns ("x") 0 5) ("x") 5 = false :=
  cooldown_start_isOn_semantics emptyCooldowns ("x") 10 5

/-! ## C7 -/

/-- C7: `applyAction` returns exactly the clamped application of the
declared effects plus the implicit score effect (present only when the
score impact is non-zero), and the input cooldown table with the
cooldowns of the action and of the triggering event both started
against the same `now`. -/
theorem applyAction_decomposition (gs : GameState) (cds : CooldownState) (a : Action)
    (eid : String) (ecd now : ℚ) :
    (applyAction gs cds a eid ecd now).1 =
      clampState (applyEffects gs (a.effects ++
        (if a.scoreImpact ≠ 0
          then [{ target := Field.score, delta := a.scoreImpact }]
          else []))) ∧
    (applyAction gs cds a eid ecd now).2 =
      startEventCooldown (startActionCooldown cds a.id a.cooldown now) eid ecd now ∧
    (applyAction gs cds a eid ecd now).2.actions a.id = some (now + a.cooldown * 1000) ∧
    (applyAction gs cds a eid ecd now).2.events eid = some (now + ecd * 1000) := by
  refine ⟨rfl, rfl, ?_, ?_⟩
  · simp [applyAction, startEventCooldown, startActionCooldown, StrMap.set]
  · simp [applyAction, startEventCooldown, startActionCooldown, StrMap.set]

/-! ## C1 -/

/-- C1: `checkRunOutcome` reports the time-exhausted loss when
timeLeft ≤ 0, else the stress loss when stress ≥ 100, else the
privilege loss when privilege ≤ 0 (fixed tie priority, for every
selected event); only with no state-threshold loss does a terminal
selected event yield `win` for a win tag or the distinguished
`critical` loss for a lose tag; otherwise it yields none. -/
theorem checkRunOutcome_priority (s : GameState) (sel : Option Event) (e : Event) :
    (s.timeLeft ≤ 0 → checkRunOutcome s sel = some RunOutcome.time) ∧
    (¬ s.timeLeft ≤ 0 → 100 ≤ s.stress → checkRunOutcome s sel = some RunOutcome.stress) ∧
    (¬ s.timeLeft ≤ 0 → ¬ 100 ≤ s.stress → s.privilege ≤ 0 →
      checkRunOutcome s sel = some RunOutcome.privilege) ∧
    (checkLoseCondition s = none → e.terminal = true →
      e.terminalOutcome = some TerminalTag.win →
      checkRunOutcome s (some e) = some RunOutcome.win) ∧
    (checkLoseCondition s = none → e.terminal = true →
      e.terminalOutcome = some TerminalTag.lose →
      checkRunOutcome s (some e) = some RunOutcome.critical) ∧
    (checkLoseCondition s = none → checkRunOutcome s none = none) ∧
    (checkLoseCondition s = none → e.terminal = false →
      checkRunOutcome s (some e) = none) ∧
    (checkLoseCondition s = none → e.terminalOutcome = none →
      checkRunOutcome s (some e) = none) := by
  refine ⟨?_, ?_, ?_, ?_, ?_, ?_, ?_, ?_⟩
  · intro h
    simp [checkRunOutcome, checkLoseCondition, h]
  · intro h1 h2
    simp [checkRunOutcome, checkLoseCondition, h1, h2]
  · intro h1 h2 h3
    simp [checkRunOutcome, checkLoseCondition, h1, h2, h3]
  · intro hn hterm hwin
    simp [checkRunOutcome, hn, hterm, hwin]
  · intro hn hterm hlose
    simp [checkRunOutcome, hn, hterm, hlose]
  · intro hn
    simp [checkRunOutcome, hn]
  · intro hn hterm
    simp [checkRunOutcome, hn, hterm]
  · intro hn htag
    cases hb : e.terminal <;> simp [checkRunOutcome, hn, htag, hb]

/-- Witness for C1: time loss beats a simultaneous stress violation and
a terminal win event; with a healthy state the terminal tags decide. -/
theorem checkRunOutcome_priority_witness :
    checkRunOutcome { INITIAL_STATE with timeLeft := 0, stress := 100 }
      (some demoTerminalWin) = some RunOutcome.time ∧
    checkRunOutcome INITIAL_STATE (some demoTerminalWin) = some RunOutcome.win ∧
    checkRunOutcome INITIAL_STATE (some demoTerminalLose) = some RunOutcome.critical ∧
    checkRunOutcome INITIAL_STATE (some demoEventPlain) = none :=
  ⟨(checkRunOutcome_priority { INITIAL_STATE with timeLeft := 0, stress := 100 }
      (some demoTerminalWin) demoTerminalWin).1 (by norm_num),
   (checkRunOutcome_priority INITIAL_STATE (some demoTerminalWin)
      demoTerminalWin).2.2.2.1 (by decide) rfl rfl,
   (checkRunOutcome_priority INITIAL_STATE (some demoTerminalLose)
      demoTerminalLose).2.2.2.2.1 (by decide) rfl rfl,
   (checkRunOutcome_priority INITIAL_STATE (some demoEventPlain)
      demoEventPlain).2.2.2.2.2.2.1 (by decide) rfl⟩

/-! ## C3 -/

/-- C3 failing input: `pickAction` has no phase guard, so submitting an
action on a store whose phase is `over` or `idle` is not a no-op — it
mutates the game state and the log. -/
theorem pickAction_ignores_phase :
    overStore.phase = Phase.over ∧ idleStore.phase = Phase.idle ∧
    (pickAction overStore demoAction demoEventPlain 0 0).gameState.stress = 30 ∧
    overStore.gameState.stress = 20 ∧
    (pickAction overStore demoAction demoEventPlain 0 0).log ≠ overStore.log ∧
    (pickAction idleStore demoAction demoEventPlain 0 0).gameState.stress = 30 ∧
    idleStore.gameState.stress = 20 := by
  refine ⟨rfl, rfl, ?_, rfl, ?_, ?_, rfl⟩
  · norm_num [pickAction, applyAction, applyAndClamp, applyEffects, clampState,
      GameState.set, GameState.get, INITIAL_STATE, overStore, demoAction,
      demoEventPlain, checkRunOutcome, checkLoseCondition, selectNextEvent,
      getEligibleEvents]
  · norm_num [pickAction, applyAction, applyAndClamp, applyEffects, clampState,
      GameState.set, GameState.get, INITIAL_STATE, overStore, demoAction,
      demoEventPlain, checkRunOutcome, checkLoseCondition, selectNextEvent,
      getEligibleEvents]
  · norm_num [pickAction, applyAction, applyAndClamp, applyEffects, clampState,
      GameState.set, GameState.get, INITIAL_STATE, idleStore, demoAction,
      demoEventPlain, checkRunOutcome, checkLoseCondition, selectNextEvent,
      getEligibleEvents]

/-! ## C9 -/

/-- C9: `clampState` passes influence and score through exactly; no
clamping guards influence, so effects with a negative net influence
delta drive it below zero, and the negative value persists through
every later `applyAndClamp` that carries no influence delta. -/
theorem influence_unclamped (s : GameState) (effs effs2 : List Effect)
    (cds : CooldownState) (a : Action) (eid : String) (ecd now : ℚ) :
    (clampState s).influence = s.influence ∧
    (clampState s).score = s.score ∧
    (applyAndClamp s effs).influence = s.influence + influenceDeltaSum effs ∧
    (applyAction s cds a eid ecd now).1.influence =
      s.influence + influenceDeltaSum a.effects ∧
    (s.influence + influenceDeltaSum effs < 0 →
      (applyAndClamp s effs).influence < 0) ∧
    (influenceDeltaSum effs2 = 0 →
      (applyAndClamp (applyAndClamp s effs) effs2).influence =
        s.influence + influenceDeltaSum effs) := by
  have hclampInf : ∀ t : GameState, (clampState t).influence = t.influence :=
    fun t => rfl
  refine ⟨rfl, rfl, ?_, ?_, ?_, ?_⟩
  · unfold applyAndClamp
    rw [hclampInf, applyEffects_influence]
  · show (applyAndClamp s _).influence = _
    unfold applyAndClamp
    rw [hclampInf, applyEffects_influence, influenceDeltaSum_append]
    split_ifs <;> simp [influenceDeltaSum]
  · intro h
    unfold applyAndClamp
    rw [hclampInf, applyEffects_influence]
    exact h
  · intro h0
    unfold applyAndClamp
    rw [hclampInf, applyEffects_influence, hclampInf, applyEffects_influence, h0]
    ring

/-- Witness for C9: a -5 influence effect leaves INITIAL_STATE with
negative influence, and it stays negative through a later clamped
mutation that does not touch influence. -/
theorem influence_unclamped_witness :
    (applyAndClamp INITIAL_STATE
      [{ target := Field.influence, delta := -5 }]).influence < 0 ∧
    (applyAndClamp
      (applyAndClamp INITIAL_STATE [{ target := Field.influence, delta := -5 }])
      [{ target := Field.stress, delta := 3 }]).influence =
      INITIAL_STATE.influence +
        influenceDeltaSum [{ target := Field.influence, delta := -5 }] :=
  ⟨(influence_unclamped INITIAL_STATE
      [{ target := Field.influence, delta := -5 }]
      [{ target := Field.stress, delta := 3 }]
      emptyCooldowns demoAction ("e") 0 0).2.2.2.2.1
      (by norm_num [influenceDeltaSum, INITIAL_STATE]),
   (influence_unclamped INITIAL_STATE
      [{ target := Field.influence, delta := -5 }]
      [{ target := Field.stress, delta := 3 }]
      emptyCooldowns demoAction ("e") 0 0).2.2.2.2.2
      (by simp [influenceDeltaSum])⟩

/-! ## C5 -/

/-- C5: every mutation the engine performs stays in the declared
domains — effect application is clamped for arbitrary deltas, the
tick decrement keeps an in-domain state in-domain (its floor at 0
guards timeLeft), and run initialization seeds in-domain values when
the config ranges lie within the domains. -/
theorem mutation_inDomain (s : GameState) (effs : List Effect) (st : Store)
    (now r : ℚ) (cfg : InitRanges) (rs rb rsec : ℚ) :
    InDomain (applyAndClamp s effs) ∧
    (InDomain st.gameState → InDomain (tick st now r).gameState) ∧
    (cfg.withinDomains → 0 ≤ rs → rs < 1 → 0 ≤ rb → rb < 1 →
      0 ≤ rsec → rsec < 1 → InDomain (startRunInitState cfg rs rb rsec)) := by
  refine ⟨clampState_inDomain _, ?_, ?_⟩
  · intro h
    unfold tick
    by_cases hp : st.phase ≠ Phase.playing
    · rw [if_pos hp]
      exact h
    · rw [if_neg hp]
      have hnextIn : InDomain
          { st.gameState with timeLeft := max 0 (st.gameState.timeLeft - 1) } := by
        obtain ⟨h1, h2, h3, h4, h5, h6, h7, h8⟩ := h
        exact ⟨h1, h2, h3, h4, h5, h6, h7, le_max_left _ _⟩
      cases hout : checkRunOutcome
          { st.gameState with timeLeft := max 0 (st.gameState.timeLeft - 1) } none with
      | some o => simp only [hout]; exact hnextIn
      | none =>
        cases hcur : st.currentEvent <;> simp only [hout, hcur] <;> exact hnextIn
  · intro hcfg hrs0 hrs1 hrb0 hrb1 hsec0 hsec1
    obtain ⟨⟨hs0, hslh, hs100⟩, ⟨hb0, hblh, hb100⟩, ⟨hc0, hclh, hc100⟩⟩ := hcfg
    have Hs := randomInRange_bounds cfg.stress.lo cfg.stress.hi rs hrs0 hrs1 hslh
    have Hb := randomInRange_bounds cfg.bureaucracy.lo cfg.bureaucracy.hi rb hrb0 hrb1 hblh
    have Hc := randomInRange_bounds cfg.security.lo cfg.security.hi rsec hsec0 hsec1 hclh
    refine ⟨?_, ?_, ?_, ?_, ?_, ?_, by norm_num [startRunInitState, initState, INITIAL_STATE],
      by norm_num [startRunInitState, initState, INITIAL_STATE]⟩
    · show (0 : ℚ) ≤ ((randomInRange cfg.stress.lo cfg.stress.hi rs : ℤ) : ℚ)
      exact_mod_cast le_trans hs0 Hs.1
    · show ((randomInRange cfg.stress.lo cfg.stress.hi rs : ℤ) : ℚ) ≤ 100
      exact_mod_cast le_trans Hs.2 hs100
    · show (0 : ℚ) ≤ ((randomInRange cfg.bureaucracy.lo cfg.bureaucracy.hi rb : ℤ) : ℚ)
      exact_mod_cast le_trans hb0 Hb.1
    · show ((randomInRange cfg.bureaucracy.lo cfg.bureaucracy.hi rb : ℤ) : ℚ) ≤ 100
      exact_mod_cast le_trans Hb.2 hb100
    · show (0 : ℚ) ≤ ((randomInRange cfg.security.lo cfg.security.hi rsec : ℤ) : ℚ)
      exact_mod_cast le_trans hc0 Hc.1
    · show ((randomInRange cfg.security.lo cfg.security.hi rsec : ℤ) : ℚ) ≤ 100
      exact_mod_cast le_trans Hc.2 hc100

/-! ## Weighted-pick lemmas -/

lemma sumPos_foldl (ws : List ℚ) (a : ℚ) :
    ws.foldl (fun sum w => sum + max 0 w) a = a + sumPosWeights ws := by
  induction ws generalizing a with
  | nil => simp [sumPosWeights]
  | cons w ws ih =>
    simp only [sumPosWeights, List.foldl_cons]
    rw [ih, ih]
    ring

lemma sumPos_cons (w : ℚ) (ws : List ℚ) :
    sumPosWeights (w :: ws) = max 0 w + sumPosWeights ws := by
  have h : sumPosWeights (w :: ws) =
      ws.foldl (fun sum w => sum + max 0 w) (0 + max 0 w) := rfl
  rw [h, sumPos_foldl]
  ring

lemma sumPos_nonneg (ws : List ℚ) : 0 ≤ sumPosWeights ws := by
  induction ws with
  | nil => simp [sumPosWeights]
  | cons w ws ih =>
    rw [sumPos_cons]
    have := le_max_left 0 w
    linarith

lemma sumPos_eq_zero (ws : List ℚ) (h : ∀ w ∈ ws, w ≤ 0) : sumPosWeights ws = 0 := by
  induction ws with
  | nil => rfl
  | cons w ws ih =>
    rw [sumPos_cons, ih (fun x hx => h x (List.mem_cons_of_mem _ hx)),
      max_eq_left (h w (List.mem_cons_self _ _))]
    ring

lemma sumPos_pos (ws : List ℚ) (w : ℚ) (hmem : w ∈ ws) (hw : 0 < w) :
    0 < sumPosWeights ws := by
  induction ws with
  | nil => cases hmem
  | cons x ws ih =>
    rw [sumPos_cons]
    rcases List.mem_cons.mp hmem with h | h
    · subst h
      have h1 := sumPos_nonneg ws
      have h2 := le_max_right 0 w
      linarith
    · have h1 := ih h
      have h2 := le_max_left 0 x
      linarith

lemma sumPos_map_max0 (ws : List ℚ) :
    sumPosWeights (ws.map (fun w => max 0 w)) = sumPosWeights ws := by
  induction ws with
  | nil => rfl
  | cons w ws ih => simp only [List.map_cons, sumPos_cons, max0_idem, ih]

/-- The main loop finds an item whenever the roll undershoots the total. -/
lemma pickLoop_isSome {α : Type} :
    ∀ (items : List α) (ws : List ℚ) (roll : ℚ), items ≠ [] →
    items.length = ws.length → roll < sumPosWeights ws →
    (pickLoop items ws roll).isSome = true := by
  intro items
  induction items with
  | nil =>
    intro ws roll h
    exact absurd rfl h
  | cons x xs ih =>
    intro ws roll _ hlen hroll
    cases ws with
    | nil => simp at hlen
    | cons w ws =>
      rw [sumPos_cons] at hroll
      cases xs with
      | nil =>
        cases ws with
        | nil =>
          have hc : roll - max 0 w ≤ 0 := by
            have h0 : sumPosWeights ([] : List ℚ) = 0 := rfl
            rw [h0, add_zero] at hroll
            linarith
          simp [pickLoop, hc]
        | cons _ _ => simp at hlen
      | cons y ys =>
        by_cases hc : roll - max 0 w ≤ 0
        · simp [pickLoop, hc]
        · have hlen2 : (y :: ys).length = ws.length := by simpa using hlen
          have hroll2 : roll - max 0 w < sumPosWeights ws := by linarith
          have := ih ws (roll - max 0 w) (by simp) hlen2 hroll2
          simpa [pickLoop, hc] using this

lemma pickLoop_mem {α : Type} :
    ∀ (items : List α) (ws : List ℚ) (roll : ℚ) (x : α),
    pickLoop items ws roll = some x → x ∈ items := by
  intro items
  induction items with
  | nil =>
    intro ws roll x h
    simp [pickLoop] at h
  | cons a as ih =>
    intro ws roll x h
    cases ws with
    | nil => simp [pickLoop] at h
    | cons w ws =>
      by_cases hc : roll - max 0 w ≤ 0
      · simp [pickLoop, hc] at h
        subst h
        exact List.mem_cons_self _ _
      · simp only [pickLoop, if_neg hc] at h
        exact List.mem_cons_of_mem _ (ih ws _ x h)

lemma pickLoop_map_max0 {α : Type} :
    ∀ (items : List α) (ws : List ℚ) (roll : ℚ),
    pickLoop items (ws.map (fun w => max 0 w)) roll = pickLoop items ws roll := by
  intro items
  induction items with
  | nil => intro ws roll; rfl
  | cons a as ih =>
    intro ws roll
    cases ws with
    | nil => rfl
    | cons w ws =>
      simp only [List.map_cons, pickLoop, max0_idem]
      rw [ih]

lemma pickFallback_mem {α : Type} (items : List α) (ws : List ℚ) (x : α)
    (h : pickFallback items ws = some x) : x ∈ items := by
  unfold pickFallback at h
  rcases Option.map_eq_some'.mp h with ⟨p, hfind, hfst⟩
  have hp := List.mem_of_find?_eq_some hfind
  rw [List.mem_reverse] at hp
  rw [← hfst]
  exact (List.of_mem_zip hp).1

lemma weightedRandomPick_mem {α : Type} (items : List α) (ws : List ℚ) (r : ℚ)
    (x : α) (h : weightedRandomPick items ws r = some x) : x ∈ items := by
  simp only [weightedRandomPick] at h
  by_cases hemp : items.isEmpty = true
  · rw [if_pos hemp] at h
    cases h
  · rw [if_neg hemp] at h
    by_cases htot : sumPosWeights ws ≤ 0
    · rw [if_pos htot] at h
      cases h
    · rw [if_neg htot] at h
      cases hpl : pickLoop items ws (r * sumPosWeights ws) with
      | some y =>
        rw [hpl] at h
        have hyx : y = x := Option.some.inj h
        subst hyx
        exact pickLoop_mem items ws _ y hpl
      | none =>
        rw [hpl] at h
        exact pickFallback_mem items ws x h

/-- With a non-empty candidate list, positive total and an in-range
draw, the fallback loop is unreachable: the pick is the main loop. -/
lemma wrp_eq_pickLoop {α : Type} (items : List α) (ws : List ℚ) (r : ℚ)
    (hne : items ≠ []) (hlen : items.length = ws.length) (_hr0 : 0 ≤ r)
    (hr1 : r < 1) (htot : 0 < sumPosWeights ws) :
    weightedRandomPick items ws r = pickLoop items ws (r * sumPosWeights ws) := by
  have hempf : items.isEmpty = false := by
    cases items with
    | nil => exact absurd rfl hne
    | cons _ _ => rfl
  simp only [weightedRandomPick, hempf, Bool.false_eq_true, if_false]
  rw [if_neg (not_le.mpr htot)]
  cases hpl : pickLoop items ws (r * sumPosWeights ws) with
  | some x => rfl
  | none =>
    exfalso
    have hroll : r * sumPosWeights ws < sumPosWeights ws := by
      have := mul_lt_mul_of_pos_right hr1 htot
      linarith
    have hsome := pickLoop_isSome items ws (r * sumPosWeights ws) hne hlen hroll
    rw [hpl] at hsome
    simp at hsome

/-! ## C2 -/

/-- C2 counterexample: when the uniform draw is exactly 0 the roll
starts at 0 and the very first zero-weight candidate already satisfies
roll ≤ 0, so with weights [0,0,5] the FIRST item is returned, not the
third. -/
theorem weightedRandomPick_zero_draw_cex :
    weightedRandomPick [(1 : ℕ), 2, 3] [(0 : ℚ), 0, 5] 0 = some 1 ∧
    weightedRandomPick [(1 : ℕ), 2, 3] [(0 : ℚ), 0, 5] 0 ≠ some 3 ∧
    (0 : ℚ) ≤ 0 ∧ (0 : ℚ) < 1 := by
  have h : weightedRandomPick [(1 : ℕ), 2, 3] [(0 : ℚ), 0, 5] 0 = some 1 := by
    norm_num [weightedRandomPick, pickLoop, sumPosWeights, max_def]
  refine ⟨h, ?_, le_refl 0, by norm_num⟩
  rw [h]
  simp

/-- C2 amended: negative weights are sampled as 0; the pick is none
exactly when the list is empty or every weight is ≤ 0; with a positive
total the result is the linear walk (the fallback is unreachable); and
with weights [0,0,5] every POSITIVE draw selects the third item. -/
theorem weightedRandomPick_amended {α : Type} (items : List α) (weights : List ℚ)
    (r : ℚ) (a b c : α) (hlen : items.length = weights.length)
    (hr0 : 0 ≤ r) (hr1 : r < 1) :
    (weightedRandomPick items (weights.map (fun w => max 0 w)) r =
      weightedRandomPick items weights r) ∧
    (weightedRandomPick items weights r = none ↔
      items = [] ∨ ∀ w ∈ weights, w ≤ 0) ∧
    (items ≠ [] → 0 < sumPosWeights weights →
      weightedRandomPick items weights r =
        pickLoop items weights (r * sumPosWeights weights)) ∧
    (0 < r → weightedRandomPick [a, b, c] [0, 0, 5] r = some c) := by
  refine ⟨?_, ?_, ?_, ?_⟩
  · by_cases hne : items = []
    · subst hne
      rfl
    · by_cases htot : 0 < sumPosWeights weights
      · have hlen2 : items.length = (weights.map (fun w => max 0 w)).length := by
          simpa using hlen
        rw [wrp_eq_pickLoop items _ r hne hlen2 hr0 hr1
            (by rwa [sumPos_map_max0]),
          wrp_eq_pickLoop items weights r hne hlen hr0 hr1 htot,
          sumPos_map_max0, pickLoop_map_max0]
      · push_neg at htot
        have h0 : sumPosWeights weights = 0 :=
          le_antisymm htot (sumPos_nonneg weights)
        have h0m : sumPosWeights (weights.map (fun w => max 0 w)) = 0 := by
          rw [sumPos_map_max0]
          exact h0
        simp [weightedRandomPick, h0, h0m]
  · constructor
    · intro hnone
      by_cases hempty : items = []
      · exact Or.inl hempty
      · refine Or.inr ?_
        intro w hw
        by_contra hpos
        push_neg at hpos
        have htot := sumPos_pos weights w hw hpos
        rw [wrp_eq_pickLoop items weights r hempty hlen hr0 hr1 htot] at hnone
        have hroll : r * sumPosWeights weights < sumPosWeights weights := by
          have := mul_lt_mul_of_pos_right hr1 htot
          linarith
        have hsome := pickLoop_isSome items weights _ hempty hlen hroll
        rw [hnone] at hsome
        simp at hsome
    · intro h
      rcases h with h | h
      · subst h
        rfl
      · have htot0 : sumPosWeights weights = 0 := sumPos_eq_zero weights h
        simp [weightedRandomPick, htot0]
  · intro hne htot
    exact wrp_eq_pickLoop items weights r hne hlen hr0 hr1 htot
  · intro hrpos
    have h05 : sumPosWeights [(0 : ℚ), 0, 5] = 5 := by
      norm_num [sumPosWeights, max_def]
    have hlt5 : r * 5 < 5 := by nlinarith
    have hpos5 : 0 < r * 5 := by nlinarith
    have e1 : pickLoop [a, b, c] [(0 : ℚ), 0, 5] (r * 5) = some c := by
      have hm0 : max (0 : ℚ) 0 = 0 := max_self 0
      have hm5 : max (0 : ℚ) 5 = 5 := max_eq_right (by norm_num)
      simp only [pickLoop, hm0, hm5, sub_zero]
      rw [if_neg (by linarith), if_neg (by linarith), if_pos (by linarith)]
    simp only [weightedRandomPick, List.isEmpty_cons, Bool.false_eq_true,
      if_false, h05]
    rw [if_neg (by norm_num), e1]

/-- Witness for C2 amended at concrete lists and draws. -/
theorem weightedRandomPick_amended_witness :
    (weightedRandomPick [(1 : ℕ), 2] ([(-3 : ℚ), 2].map (fun w => max 0 w)) (1/2) =
      weightedRandomPick [(1 : ℕ), 2] [(-3 : ℚ), 2] (1/2)) ∧
    (weightedRandomPick [(1 : ℕ), 2] [(-3 : ℚ), 2] (1/2) = none ↔
      [(1 : ℕ), 2] = [] ∨ ∀ w ∈ [(-3 : ℚ), 2], w ≤ 0) ∧
    ([(1 : ℕ), 2] ≠ [] → 0 < sumPosWeights [(-3 : ℚ), 2] →
      weightedRandomPick [(1 : ℕ), 2] [(-3 : ℚ), 2] (1/2) =
        pickLoop [(1 : ℕ), 2] [(-3 : ℚ), 2] ((1/2) * sumPosWeights [(-3 : ℚ), 2])) ∧
    (0 < (1/2 : ℚ) →
      weightedRandomPick [(10 : ℕ), 20, 30] [(0 : ℚ), 0, 5] (1/2) = some 30) :=
  weightedRandomPick_amended [(1 : ℕ), 2] [(-3 : ℚ), 2] (1/2) 10 20 30
    (by norm_num) (by norm_num) (by norm_num)

/-! ## C4 -/

/-- C4 counterexample: `selectNextEvent` called twice with identical
catalog, state, cooldowns, modifiers and `now` returns different events
for different values of the ambient `Math.random()` draw — the random
source is read inside the engine, not supplied among the arguments the
claim lists. -/
theorem selectNextEvent_ambient_draw_cex :
    selectNextEvent [eventA, eventB] INITIAL_STATE emptyCooldowns StrMap.empty 0 0 =
      some eventA ∧
    selectNextEvent [eventA, eventB] INITIAL_STATE emptyCooldowns StrMap.empty 0 (3/4) =
      some eventB ∧
    eventA ≠ eventB ∧ (0 : ℚ) ≤ 0 ∧ (0 : ℚ) < 1 ∧ (0 : ℚ) ≤ 3/4 ∧ (3/4 : ℚ) < 1 := by
  refine ⟨?_, ?_, by decide, le_refl 0, by norm_num, by norm_num, by norm_num⟩
  · norm_num [selectNextEvent, getEligibleEvents, evaluateConditions,
      isEventOnCooldown, emptyCooldowns, StrMap.empty, computeWeight,
      eventA, eventB, weightedRandomPick, pickLoop, sumPosWeights, max_def]
  · norm_num [selectNextEvent, getEligibleEvents, evaluateConditions,
      isEventOnCooldown, emptyCooldowns, StrMap.empty, computeWeight,
      eventA, eventB, weightedRandomPick, pickLoop, sumPosWeights, max_def]

lemma genEnvLoop_congr (r1 r2 : ℕ → ℚ) :
    ∀ (evs : List Event) (i : ℕ) (acc : StrMap),
    (∀ j, j < evs.length → r1 (i + j) = r2 (i + j)) →
    genEnvLoop evs i r1 acc = genEnvLoop evs i r2 acc := by
  intro evs
  induction evs with
  | nil =>
    intro i acc _
    rfl
  | cons e rest ih =>
    intro i acc h
    have h0 : r1 i = r2 i := by simpa using h 0 (by simp)
    simp only [genEnvLoop, h0]
    apply ih
    intro j hj
    have hh := h (j + 1) (by simp only [List.length_cons]; omega)
    have hidx : i + (j + 1) = i + 1 + j := by omega
    rwa [hidx] at hh

/-- C4 amended: engine results are determined by the explicit inputs
plus the values of the internal `Math.random()` draws — in particular
the per-run environment-modifier table depends only on the draws made
for indices below the catalog length. -/
theorem generateEnvModifiers_determined (events : List Event) (r1 r2 : ℕ → ℚ)
    (h : ∀ i, i < events.length → r1 i = r2 i) :
    generateEnvModifiers events r1 = generateEnvModifiers events r2 :=
  genEnvLoop_congr r1 r2 events 0 StrMap.empty (by
    intro j hj
    simpa using h j hj)

/-- Witness for C4 amended: two streams agreeing on the single consumed
index give the same modifier table. -/
theorem generateEnvModifiers_determined_witness :
    generateEnvModifiers [eventA] rStream0 = generateEnvModifiers [eventA] rStream1 :=
  generateEnvModifiers_determined [eventA] rStream0 rStream1 (by
    intro i hi
    have h0 : i = 0 := by simpa using hi
    subst h0
    rfl)

/-! ## C10 -/

/-- C10: within one pickAction transition the selection that follows
`applyAction` runs at the same `now` used to stamp the acted-on
event, so with a positive event cooldown that event (by id) can never
be the event selected next in the same transition. -/
theorem acted_event_not_reselected (events : List Event) (st : GameState)
    (cds : CooldownState) (env : StrMap) (now rand : ℚ) (a : Action)
    (ev e2 : Event) (hcd : 0 < ev.cooldown)
    (hsel : selectNextEvent events (applyAction st cds a ev.id ev.cooldown now).1
      (applyAction st cds a ev.id ev.cooldown now).2 env now rand = some e2) :
    e2.id ≠ ev.id := by
  intro heq
  have hexp : (0 : ℚ) < ev.cooldown * 1000 := by positivity
  have hlook : (applyAction st cds a ev.id ev.cooldown now).2.events ev.id =
      some (now + ev.cooldown * 1000) := by
    show (startEventCooldown (startActionCooldown cds a.id a.cooldown now)
      ev.id ev.cooldown now).events ev.id = some (now + ev.cooldown * 1000)
    simp [startEventCooldown, StrMap.set]
  have hon : isEventOnCooldown (applyAction st cds a ev.id ev.cooldown now).2
      ev.id now = true := by
    simp only [isEventOnCooldown, hlook, decide_eq_true_eq]
    linarith
  have hmem : e2 ∈ getEligibleEvents events
      (applyAction st cds a ev.id ev.cooldown now).1
      (applyAction st cds a ev.id ev.cooldown now).2 now := by
    simp only [selectNextEvent] at hsel
    by_cases hemp : (getEligibleEvents events
        (applyAction st cds a ev.id ev.cooldown now).1
        (applyAction st cds a ev.id ev.cooldown now).2 now).isEmpty = true
    · rw [if_pos hemp] at hsel
      cases hsel
    · rw [if_neg hemp] at hsel
      exact weightedRandomPick_mem _ _ _ _ hsel
  have hpred := (List.mem_filter.mp hmem).2
  rw [Bool.and_eq_true] at hpred
  have hnotcd := hpred.2
  rw [Bool.not_eq_true'] at hnotcd
  rw [heq, hon] at hnotcd
  cases hnotcd

/-- Witness for C10: acting on eventA (5 s cooldown) at `now = 0` and
then selecting at the same `now` yields eventB, whose id differs. -/
theorem acted_event_not_reselected_witness : eventB.id ≠ eventA.id :=
  acted_event_not_reselected [eventA, eventB] INITIAL_STATE emptyCooldowns
    StrMap.empty 0 0 demoAction eventA eventB (by norm_num [eventA]) (by
      have hAA : ((("ev-A") : String) = ("ev-A")) = True := eq_true rfl
      have hBA : ((("ev-B") : String) = ("ev-A")) = False :=
        eq_false (by decide)
      norm_num [selectNextEvent, getEligibleEvents, evaluateConditions,
        isEventOnCooldown, emptyCooldowns, StrMap.empty, StrMap.set,
        computeWeight, eventA, eventB, demoAction, applyAction,
        startEventCooldown, startActionCooldown, applyAndClamp, applyEffects,
        clampState, GameState.set, GameState.get, INITIAL_STATE,
        weightedRandomPick, pickLoop, sumPosWeights, max_def, hAA, hBA])

/-- Witness for C5 at concrete state, store, config and draws. -/
theorem mutation_inDomain_witness :
    InDomain (applyAndClamp INITIAL_STATE
      [{ target := Field.stress, delta := 1000 }]) ∧
    InDomain (tick idleStore 0 0).gameState ∧
    InDomain (startRunInitState cfgDemo (1/2) (1/2) (1/2)) :=
  ⟨(mutation_inDomain INITIAL_STATE [{ target := Field.stress, delta := 1000 }]
      idleStore 0 0 cfgDemo (1/2) (1/2) (1/2)).1,
   (mutation_inDomain INITIAL_STATE [{ target := Field.stress, delta := 1000 }]
      idleStore 0 0 cfgDemo (1/2) (1/2) (1/2)).2.1 (by decide),
   (mutation_inDomain INITIAL_STATE [{ target := Field.stress, delta := 1000 }]
      idleStore 0 0 cfgDemo (1/2) (1/2) (1/2)).2.2 (by decide)
      (by norm_num) (by norm_num) (by norm_num) (by norm_num) (by norm_num)
      (by norm_num)⟩

end OpenPort
